import Mathlib

/-!
Shallow embedding of neurodynex/tools/plot_tools.py.

Numeric quantities (times in ms, voltages in mV, currents in A) are modelled
as rationals. Simulator monitor objects are modelled by the data this module
reads from them; draw calls to the plotting backend are modelled by recording,
in a layout structure, which series and colors are handed to the backend.
Fallible Python operations (list indexing, dict lookup, max of an empty
sequence, assert) are modelled with Option and Except.
-/

namespace PlotTools

/-- Python max over a list of numbers: none on an empty sequence. -/
def pyMax : List ℚ → Option ℚ
  | [] => none
  | x :: xs => some (xs.foldl max x)

/-- Python min over a list of numbers: none on an empty sequence. -/
def pyMin : List ℚ → Option ℚ
  | [] => none
  | x :: xs => some (xs.foldl min x)

/-- Layout produced by plot_voltage_and_current_traces (source lines 24-78):
the y-limits applied to the current panel (none when the padding is skipped),
the y-limits applied to the voltage panel, whether a threshold reference line
is drawn, and whether the legend with the threshold entry is added. -/
structure VCView where
  current_ylim : Option (ℚ × ℚ)
  voltage_ylim : ℚ × ℚ
  threshold_line : Bool
  legend_threshold : Bool
deriving DecidableEq

/-- Embedding of plot_voltage_and_current_traces, source lines 39-73.
voltage is voltage_monitor[0].v, currentSamples is the current sampled at
the voltage monitor time points (line 43). Lines 44-50 compute the current
panel limits, skipped unless the margin is strictly positive; lines 56-67
draw the optional threshold line and compute the voltage panel limits. -/
def plot_voltage_and_current_traces (voltage currentSamples : List ℚ)
    (firing_threshold : Option ℚ) : Option VCView := do
  let max_current ← pyMax currentSamples
  let min_current ← pyMin currentSamples
  let marginC := 21/20 * (max_current - min_current)
  let current_ylim := if 0 < marginC then
      some (min_current - marginC, max_current + marginC) else none
  let vmax ← pyMax voltage
  let max_val := match firing_threshold with
    | some th => max vmax th
    | none => vmax
  let min_val ← pyMin voltage
  let margin := 1/20 * (max_val - min_val)
  some ⟨current_ylim, (min_val - margin, max_val + margin),
        firing_threshold.isSome, firing_threshold.isSome⟩

/-- Population rate monitor: its time stamps in ms (rate values themselves are
passed to the external smoothing routine and the renderer unchanged). -/
structure RateMonitorM where
  t : List ℚ
deriving DecidableEq

/-- Spike monitor: spike_trains() as an association list from neuron index to
the ordered list of spike time stamps in ms. -/
structure SpikeMonitorM where
  spike_trains : List (ℕ × List ℚ)
deriving DecidableEq

/-- State (voltage) monitor: the recorded neuron indices and the sample time
stamps in ms. Sample values flow to the renderer unchanged. -/
structure StateMonitorM where
  record : List ℕ
  t : List ℚ
deriving DecidableEq

/-- Python value passed as the spike_train_idx_list argument, tagged with its
runtime type. -/
inductive PyArg where
  | pynone
  | pylist (l : List ℕ)
  | pytuple (l : List ℕ)
  | pystr (s : String)
  | pyint (n : ℤ)
deriving DecidableEq

/-- Python sequence types among the modelled argument kinds: list, tuple and
str are sequence types; None and int are not. -/
def isSequenceType : PyArg → Bool
  | .pylist _ => true
  | .pytuple _ => true
  | .pystr _ => true
  | _ => false

/-- Exactly the Python list type. -/
def isPyList : PyArg → Bool
  | .pylist _ => true
  | _ => false

/-- Source lines 113-114: assert spike_train_idx_list is None or a list. -/
def validateIdxArg : PyArg → Except String (Option (List ℕ))
  | .pynone => .ok none
  | .pylist l => .ok (some l)
  | _ => .error "spike_train_idx_list is not of type list"

/-- Source lines 118-123: the index list a missing explicit selection is
derived from, the voltage monitor record when a voltage monitor is present,
else the spike train keys. -/
def selectionBase (voltage_record : Option (List ℕ))
    (spike_train_keys : List ℕ) : List ℕ :=
  match voltage_record with
  | some r => r
  | none => spike_train_keys

/-- Source lines 116-126: the index selection. When no explicit list is given,
sort the voltage monitor record if a voltage monitor is present, else sort the
spike train keys, and truncate to the first 500 entries when longer than 500.
An explicit list is used unchanged. -/
def deriveSelection (spike_train_idx_list : Option (List ℕ))
    (voltage_record : Option (List ℕ)) (spike_train_keys : List ℕ) : List ℕ :=
  match spike_train_idx_list with
  | some l => l
  | none =>
    let sorted := List.insertionSort (· ≤ ·)
      (selectionBase voltage_record spike_train_keys)
    if 500 < sorted.length then sorted.take 500 else sorted

/-- Source lines 128-136: the plotted time window. t_max defaults to the
maximum time stamp of the rate monitor (none when the rate series is empty,
matching the Python max error), t_min defaults to max(0, t_max - 100).
Explicit values are used unchanged (after unit conversion). -/
def deriveWindow (t_min t_max : Option ℚ) (rate_t : List ℚ) :
    Option (ℚ × ℚ) := do
  let tmax ← match t_max with
    | none => pyMax rate_t
    | some v => some v
  let tmin := match t_min with
    | none => max 0 (tmax - 100)
    | some v => v
  some (tmin, tmax)

/-- numpy.linspace(0, 1, n + 2) with both endpoints dropped (source line 219):
the n fractions (i + 1) / (n + 1) for i < n. -/
def linspaceInner (n : ℕ) : List ℚ :=
  (List.range n).map (fun i : ℕ => ((i : ℚ) + 1) / ((n : ℚ) + 1))

/-- Source lines 219-220: highlighted raster row indices,
int(nr_neurons * v) for each inner linspace fraction v. The Python int
truncation coincides with the floor on these nonnegative products. -/
def highlightedIndices (nr_neurons n_highlighted : ℕ) : List ℕ :=
  (linspaceInner n_highlighted).map (fun v => ⌊(nr_neurons : ℚ) * v⌋₊)

/-- Runs a fallible action on every element in order, stopping at the first
error, as a Python for loop of draw calls does. -/
def mapExcept (f : α → Except String β) : List α → Except String (List β)
  | [] => .ok []
  | x :: xs => do
    let y ← f x
    let ys ← mapExcept f xs
    .ok (y :: ys)

/-- Pairs each list element with its position, starting at i. -/
def indexedFrom (i : ℕ) : List α → List (ℕ × α)
  | [] => []
  | x :: xs => (i, x) :: indexedFrom (i + 1) xs

/-- Pairs each list element with its position, modelling a Python loop
for i in range(len(l)) that reads l[i]. -/
def indexed (l : List α) : List (ℕ × α) := indexedFrom 0 l

/-- Source lines 148-156, get_spike_train_ts_indices: the spikes of one train
falling inside the closed window. Also the window filter applied to the rate
series time stamps (line 191) and the voltage time stamps (line 203). -/
def windowFilter (t_min t_max : ℚ) (ts : List ℚ) : List ℚ :=
  ts.filter (fun τ => decide (t_min ≤ τ) && decide (τ ≤ t_max))

/-- Source lines 158-168, plot_raster: one raster row per selected neuron, in
selection order; the row content is the windowed spike train of that neuron.
Looking up a neuron index absent from spike_trains() is a Python KeyError. -/
def plot_raster (all_spike_trains : List (ℕ × List ℚ)) (t_min t_max : ℚ)
    (spike_train_idx_list : List ℕ) : Except String (List (List ℚ)) :=
  mapExcept (fun neuron_index =>
    match (all_spike_trains.find? (fun p => p.1 == neuron_index)) with
    | some p => .ok (windowFilter t_min t_max p.2)
    | none => .error "KeyError") spike_train_idx_list

/-- Source lines 170-184, highlight_raster: for the i-th highlighted raster
row index, read the population index spike_train_idx_list[raster_plot_index]
(IndexError when out of range), look its train up and re-draw its windowed
spikes at that row in color r for i = 0 and k otherwise. The layout records
(row, windowed spikes, color). -/
def highlight_raster (all_spike_trains : List (ℕ × List ℚ)) (t_min t_max : ℚ)
    (spike_train_idx_list : List ℕ) (neuron_idxs : List ℕ) :
    Except String (List (ℕ × List ℚ × String)) :=
  mapExcept (fun p =>
    match spike_train_idx_list.get? p.2 with
    | none => .error "IndexError: list index out of range"
    | some population_index =>
      match (all_spike_trains.find? (fun q => q.1 == population_index)) with
      | some q => .ok (p.2, windowFilter t_min t_max q.2,
                       if p.1 = 0 then "r" else "k")
      | none => .error "KeyError") (indexed neuron_idxs)

/-- Source lines 198-212, plot_voltage_traces: for the i-th entry ri of
voltage_traces_i, read population_index = spike_train_idx_list[ri]
(IndexError when out of range), then plot the recorded trace of that neuron
(IndexError when the index was not recorded by the monitor) in color r for
i = 0 and .7 otherwise. The layout records the windowed voltage time stamps
and the (population index, color) pairs. -/
def plot_voltage_traces (vm_record : List ℕ) (vm_t : List ℚ)
    (t_min t_max : ℚ) (spike_train_idx_list : List ℕ)
    (voltage_traces_i : List ℕ) :
    Except String (List ℚ × List (ℕ × String)) := do
  let plotted ← mapExcept (fun p =>
    match spike_train_idx_list.get? p.2 with
    | none => .error "IndexError: list index out of range"
    | some population_index =>
      if population_index ∈ vm_record then
        .ok (population_index, if p.1 = 0 then "r" else ".7")
      else .error "IndexError: index not recorded by StateMonitor")
    (indexed voltage_traces_i)
  .ok (windowFilter t_min t_max vm_t, plotted)

/-- The renderable content of the composite figure built by
plot_network_activity: the effective selection, the effective window, the
raster rows, the windowed rate time stamps, the highlighted (row, color)
pairs, and the voltage panel (none when no voltage monitor is supplied). -/
structure NetworkActivityLayout where
  selection : List ℕ
  t_min : ℚ
  t_max : ℚ
  raster : List (List ℚ)
  rate_ts : List ℚ
  highlights : List (ℕ × List ℚ × String)
  voltage_panel : Option (List ℚ × List (ℕ × String))
deriving DecidableEq

/-- Embedding of plot_network_activity, source lines 81-231, in source order:
validate the optional index argument (113-114), derive the selection
(116-126), derive the window (128-136), draw the raster (214), window the
rate series (215, 186-196), compute and draw the highlights (216-221), and
draw the voltage panel when a voltage monitor is present (223-228). -/
def plot_network_activity (rate_monitor : RateMonitorM)
    (spike_monitor : SpikeMonitorM) (voltage_monitor : Option StateMonitorM)
    (spike_train_idx_arg : PyArg) (t_min t_max : Option ℚ)
    (n_highlighted : ℕ) : Except String NetworkActivityLayout := do
  let idx_list ← validateIdxArg spike_train_idx_arg
  let all_spike_trains := spike_monitor.spike_trains
  let selection := deriveSelection idx_list
      (voltage_monitor.map (fun vm => vm.record))
      (all_spike_trains.map (fun p => p.1))
  let window ← match deriveWindow t_min t_max rate_monitor.t with
    | some w => Except.ok w
    | none => Except.error "max arg is an empty sequence"
  let raster ← plot_raster all_spike_trains window.1 window.2 selection
  let rate_ts := windowFilter window.1 window.2 rate_monitor.t
  let nr_neurons := selection.length
  let highlighted_neurons_i := if 0 < n_highlighted then
      highlightedIndices nr_neurons n_highlighted else []
  let highlights ← if 0 < n_highlighted then
      highlight_raster all_spike_trains window.1 window.2 selection
        highlighted_neurons_i
    else Except.ok []
  let voltage_panel ← match voltage_monitor with
    | none => Except.ok none
    | some vm => do
      let traces_i := if n_highlighted = 0 then List.range nr_neurons
        else highlighted_neurons_i
      let p ← plot_voltage_traces vm.record vm.t window.1 window.2
        selection traces_i
      Except.ok (some p)
  .ok ⟨selection, window.1, window.2, raster, rate_ts, highlights,
       voltage_panel⟩

/-- Result of the external statistics helper get_spike_train_stats, modelled
as an abstract input per the spec: the full inter spike interval list in ms
and the coefficient of variation it computes over that full list. -/
structure SpikeStats where
  all_ISI : List ℚ
  CV : ℚ
deriving DecidableEq

/-- Renderable content of the ISI histogram figure: the bin count, the ISI
values handed to the histogram, and the CV printed in the title. -/
structure ISIView where
  nr_bins : ℕ
  displayed_ISI : List ℚ
  title_CV : ℚ
deriving DecidableEq

/-- Embedding of plot_ISI_distribution, source lines 234-254: the stats come
from the external helper over the full monitor; the histogram data are the
ISIs at most hist_max_ISI (lines 248-250); the title shows stats.CV
(line 253), computed over the unfiltered set. -/
def plot_ISI_distribution (stats : SpikeStats) (hist_nr_bins : ℕ)
    (hist_max_ISI : ℚ) : ISIView :=
  ⟨hist_nr_bins,
   stats.all_ISI.filter (fun isi => decide (isi ≤ hist_max_ISI)),
   stats.CV⟩

/-! Helper lemmas. -/

lemma foldl_max_sorted : ∀ (xs : List ℚ) (x : ℚ),
    List.Chain' (· ≤ ·) (x :: xs) →
    xs.foldl max x = (x :: xs).getLast (List.cons_ne_nil x xs)
  | [], _, _ => rfl
  | y :: ys, x, h => by
    have hxy : x ≤ y := (List.chain'_cons.mp h).1
    have h2 : List.Chain' (· ≤ ·) (y :: ys) := (List.chain'_cons.mp h).2
    have hstep : List.foldl max x (y :: ys) = List.foldl max y ys := by
      simp [List.foldl, max_eq_right hxy]
    rw [hstep, foldl_max_sorted ys y h2]
    rw [List.getLast_cons (List.cons_ne_nil y ys)]

lemma pyMax_sorted (l : List ℚ) (h : l ≠ []) (hs : List.Chain' (· ≤ ·) l) :
    pyMax l = some (l.getLast h) := by
  match l, h with
  | x :: xs, _ => simpa [pyMax] using foldl_max_sorted xs x hs

/-- Claim C1: in plot_network_activity, for a non-empty rate series, a
missing t_max defaults to the last (equivalently, for a time-sorted series,
the maximum) timestamp of the rate series, a missing t_min defaults to
max(0, t_max - 100); explicitly supplied values are used unchanged. -/
theorem claim_C1 (rate_t : List ℚ) (a b : ℚ) (h : rate_t ≠ [])
    (hs : List.Chain' (· ≤ ·) rate_t) :
    deriveWindow none none rate_t
      = some (max 0 (rate_t.getLast h - 100), rate_t.getLast h) ∧
    deriveWindow none (some b) rate_t = some (max 0 (b - 100), b) ∧
    deriveWindow (some a) none rate_t = some (a, rate_t.getLast h) ∧
    deriveWindow (some a) (some b) rate_t = some (a, b) := by
  have hmax := pyMax_sorted rate_t h hs
  refine ⟨?_, rfl, ?_, rfl⟩ <;> simp [deriveWindow, hmax]

/-- Claim C1 witness: a rate series spanning 0 to 250 ms with no explicit
window derives the window [150 ms, 250 ms]. -/
theorem claim_C1_witness :
    deriveWindow none none [(0 : ℚ), 250] = some (150, 250) := by
  have h := (claim_C1 [(0 : ℚ), 250] 0 0 (by simp)
    (by norm_num [List.chain'_cons])).1
  rw [h]
  norm_num [List.getLast]

/-- Claim C2: the highlighted raster row indices are exactly
floor(f * nr_neurons) for the n_highlighted fractions f evenly spaced in the
open interval (0,1), namely linspace(0,1,n_highlighted+2) with the endpoints
dropped; equivalently the i-th highlighted row is
nr_neurons * (i+1) / (n_highlighted+1) in integer division. For 5 selected
spike trains and 3 highlights the rows are [1, 2, 3]. -/
theorem claim_C2 (N nh : ℕ) :
    highlightedIndices N nh
      = (List.range nh).map (fun i => N * (i + 1) / (nh + 1)) ∧
    highlightedIndices 5 3 = [1, 2, 3] := by
  constructor
  · unfold highlightedIndices linspaceInner
    rw [List.map_map]
    apply List.map_congr_left
    intro i _
    have hcast : (N : ℚ) * (((i : ℚ) + 1) / ((nh : ℚ) + 1))
        = ((N * (i + 1) : ℕ) : ℚ) / (((nh + 1) : ℕ) : ℚ) := by
      push_cast
      ring
    rw [Function.comp_apply, hcast, Nat.floor_div_eq_div]
  · norm_num [highlightedIndices, linspaceInner, List.range_succ]
    refine ⟨?_, ?_, ?_⟩ <;> rw [Nat.floor_eq_iff (by norm_num)] <;> norm_num

/-- Claim C3: in plot_network_activity without an explicit index list, the
selection is derived from the voltage monitor record when present, else from
the spike train keys, sorted ascending; it is a prefix of that sorted base,
never longer than 500 entries, and is silently truncated to the first 500
sorted entries exactly when the base has more than 500; when the base has at
most 500 entries the selection is the whole sorted base. -/
theorem claim_C3 (vr : Option (List ℕ)) (keys : List ℕ) :
    (deriveSelection none vr keys).Sorted (· ≤ ·) ∧
    (deriveSelection none vr keys).length ≤ 500 ∧
    (deriveSelection none vr keys) <+:
      List.insertionSort (· ≤ ·) (selectionBase vr keys) ∧
    (500 < (selectionBase vr keys).length →
      deriveSelection none vr keys
        = (List.insertionSort (· ≤ ·) (selectionBase vr keys)).take 500) ∧
    ((selectionBase vr keys).length ≤ 500 →
      (deriveSelection none vr keys).Perm (selectionBase vr keys)) := by
  have hsorted : (List.insertionSort (· ≤ ·) (selectionBase vr keys)).Sorted
      (· ≤ ·) := List.sorted_insertionSort _ _
  have hlen : (List.insertionSort (· ≤ ·) (selectionBase vr keys)).length
      = (selectionBase vr keys).length := List.length_insertionSort _ _
  have hsel : deriveSelection none vr keys
      = if 500 < (List.insertionSort (· ≤ ·) (selectionBase vr keys)).length
        then (List.insertionSort (· ≤ ·) (selectionBase vr keys)).take 500
        else List.insertionSort (· ≤ ·) (selectionBase vr keys) := rfl
  by_cases hc : 500 < (List.insertionSort (· ≤ ·) (selectionBase vr keys)).length
  · rw [hsel, if_pos hc]
    refine ⟨List.Pairwise.sublist (List.take_sublist 500 _) hsorted, ?_,
      List.take_prefix 500 _, fun _ => rfl, fun hb => absurd hc (by omega)⟩
    rw [List.length_take]
    exact min_le_left _ _
  · rw [hsel, if_neg hc]
    rw [not_lt] at hc
    exact ⟨hsorted, by omega, List.prefix_rfl,
      fun hb => absurd hb (by omega),
      fun _ => List.perm_insertionSort _ _⟩

/-- Claim C3 witness: for a voltage monitor recording [3, 1, 2] and no
explicit list, the derived selection is sorted and is a permutation of the
record (no truncation below 500 entries). -/
theorem claim_C3_witness :
    (deriveSelection none (some [3, 1, 2]) []).Sorted (· ≤ ·) ∧
    (deriveSelection none (some [3, 1, 2]) []).Perm [3, 1, 2] := by
  have h := claim_C3 (some [3, 1, 2]) []
  exact ⟨h.1, h.2.2.2.2 (by norm_num [selectionBase])⟩

/-- Claim C4: plot_ISI_distribution draws the histogram only over the inter
spike intervals at most the cutoff hist_max_ISI, while the CV in the title is
the one the external stats helper computed over the full unfiltered ISI set;
for ISIs [1, 2, 3, 150] ms and cutoff 100 ms the displayed data are
[1, 2, 3] and the title CV is the full-set CV, whatever its value. -/
theorem claim_C4 (stats : SpikeStats) (bins : ℕ) (cutoff : ℚ) :
    (plot_ISI_distribution stats bins cutoff).displayed_ISI
      = stats.all_ISI.filter (fun isi => decide (isi ≤ cutoff)) ∧
    (∀ x ∈ (plot_ISI_distribution stats bins cutoff).displayed_ISI,
      x ≤ cutoff) ∧
    (plot_ISI_distribution stats bins cutoff).title_CV = stats.CV ∧
    ∀ c : ℚ,
      (plot_ISI_distribution ⟨[1, 2, 3, 150], c⟩ bins 100).displayed_ISI
        = [1, 2, 3] ∧
      (plot_ISI_distribution ⟨[1, 2, 3, 150], c⟩ bins 100).title_CV = c := by
  refine ⟨rfl, ?_, rfl, fun c => ⟨rfl, rfl⟩⟩
  intro x hx
  have hx2 := (List.mem_filter.mp hx).2
  exact of_decide_eq_true hx2

/-- Claim C4 witness: the concrete example evaluated, and the cutoff bound
checked on a concrete displayed member. -/
theorem claim_C4_witness :
    (plot_ISI_distribution ⟨[1, 2, 3, 150], 7⟩ 50 100).displayed_ISI
      = [1, 2, 3] ∧
    (plot_ISI_distribution ⟨[1, 2, 3, 150], 7⟩ 50 100).title_CV = 7 ∧
    (1 : ℚ) ≤ 100 := by
  have h := claim_C4 ⟨[1, 2, 3, 150], 7⟩ 50 100
  have hm : (1 : ℚ) ∈
      (plot_ISI_distribution ⟨[1, 2, 3, 150], 7⟩ 50 100).displayed_ISI := by
    rw [(h.2.2.2 7).1]
    norm_num
  exact ⟨(h.2.2.2 7).1, (h.2.2.2 7).2, h.2.1 1 hm⟩

lemma foldl_min_le_self : ∀ (xs : List ℚ) (x : ℚ), xs.foldl min x ≤ x
  | [], _ => le_refl _
  | y :: ys, x => by
    have h := foldl_min_le_self ys (min x y)
    calc (y :: ys).foldl min x = ys.foldl min (min x y) := rfl
    _ ≤ min x y := h
    _ ≤ x := min_le_left _ _

lemma self_le_foldl_max : ∀ (xs : List ℚ) (x : ℚ), x ≤ xs.foldl max x
  | [], _ => le_refl _
  | y :: ys, x => by
    have h := self_le_foldl_max ys (max x y)
    calc x ≤ max x y := le_max_left _ _
    _ ≤ ys.foldl max (max x y) := h
    _ = (y :: ys).foldl max x := rfl

lemma pyMin_le_pyMax (l : List ℚ) (M m : ℚ) (hM : pyMax l = some M)
    (hm : pyMin l = some m) : m ≤ M := by
  match l with
  | [] => simp [pyMax] at hM
  | x :: xs =>
    simp only [pyMax, Option.some.injEq] at hM
    simp only [pyMin, Option.some.injEq] at hm
    calc m = xs.foldl min x := hm.symm
    _ ≤ x := foldl_min_le_self xs x
    _ ≤ xs.foldl max x := self_le_foldl_max xs x
    _ = M := hM

/-- Claim C5 counterexample: the claim that the voltage y-range contains the
threshold for every call with a threshold fails. With voltage samples
[10, 20] mV and threshold 0 mV (below the recorded minimum), the computed
y-range is [9.5, 20.5], which does not contain the threshold 0. -/
theorem claim_C5_counterexample :
    plot_voltage_and_current_traces [(10 : ℚ), 20] [0] (some 0)
      = some ⟨none, (19/2, 41/2), true, true⟩ ∧
    ¬ ((19 : ℚ)/2 ≤ 0 ∧ (0 : ℚ) ≤ 41/2) := by
  constructor
  · norm_num [plot_voltage_and_current_traces, pyMax, pyMin]
  · norm_num

/-- Claim C5, amended: with a firing threshold given, a horizontal threshold
reference line and a legend entry are added, and the voltage y-range is
[min - margin, max(voltage max, threshold) + margin] with margin 5 percent of
the widened range; hence the range contains the threshold whenever the
threshold is at least the recorded voltage minimum, and in particular a
threshold strictly greater than the recorded voltage maximum lies strictly
inside the range, covered with its 5 percent margin. A threshold below the
recorded minimum minus the margin is not contained (see the
counterexample). -/
theorem claim_C5 (voltage currents : List ℚ) (th M m : ℚ)
    (hM : pyMax voltage = some M) (hm : pyMin voltage = some m)
    (hc : currents ≠ []) :
    ∃ view, plot_voltage_and_current_traces voltage currents (some th)
        = some view ∧
      view.threshold_line = true ∧
      view.legend_threshold = true ∧
      view.voltage_ylim
        = (m - 1/20 * (max M th - m), max M th + 1/20 * (max M th - m)) ∧
      (m ≤ th → view.voltage_ylim.1 ≤ th ∧ th ≤ view.voltage_ylim.2) ∧
      (M < th → view.voltage_ylim.1 < th ∧ th < view.voltage_ylim.2) := by
  have hmM : m ≤ M := pyMin_le_pyMax voltage M m hM hm
  obtain ⟨c, cs, rfl⟩ : ∃ c cs, currents = c :: cs := by
    match currents, hc with
    | x :: xs, _ => exact ⟨x, xs, rfl⟩
  have hMc : pyMax (c :: cs) = some (cs.foldl max c) := rfl
  have hmc : pyMin (c :: cs) = some (cs.foldl min c) := rfl
  simp only [plot_voltage_and_current_traces, hMc, hmc, hM, hm,
    Option.some_bind]
  refine ⟨_, rfl, rfl, rfl, rfl, ?_, ?_⟩
  · intro hmt
    have h1 : M ≤ max M th := le_max_left _ _
    have h2 : th ≤ max M th := le_max_right _ _
    constructor <;> simp only <;> linarith
  · intro hMt
    have hmax : max M th = th := max_eq_right hMt.le
    constructor <;> simp only [hmax] <;> linarith

/-- Claim C5 witness: voltage samples [0, 10] with threshold 20 strictly above
the recorded maximum; the computed range strictly contains the threshold. -/
theorem claim_C5_witness :
    ∃ view, plot_voltage_and_current_traces [(0 : ℚ), 10] [1] (some 20)
        = some view ∧
      view.voltage_ylim.1 < 20 ∧ (20 : ℚ) < view.voltage_ylim.2 := by
  obtain ⟨view, heq, _, _, _, _, hgt⟩ :=
    claim_C5 [(0 : ℚ), 10] [1] 20 10 0 rfl rfl (by simp)
  exact ⟨view, heq, hgt (by norm_num)⟩

/-- Claim C6: in plot_voltage_and_current_traces, when the sampled current is
flat (max = min) the padded current y-limits are skipped entirely (the
padding condition requires a strictly positive margin), and the applied
limits are never inverted; otherwise the applied limits are
[min - 1.05 (max - min), max + 1.05 (max - min)]. -/
theorem claim_C6 (voltage currents : List ℚ) (th : Option ℚ) (M m : ℚ)
    (hM : pyMax currents = some M) (hm : pyMin currents = some m)
    (hv : voltage ≠ []) :
    ∃ view, plot_voltage_and_current_traces voltage currents th
        = some view ∧
      (M = m → view.current_ylim = none) ∧
      (m < M → view.current_ylim
        = some (m - 21/20 * (M - m), M + 21/20 * (M - m))) ∧
      (∀ lo hi, view.current_ylim = some (lo, hi) → lo < hi) := by
  have hmM : m ≤ M := pyMin_le_pyMax currents M m hM hm
  obtain ⟨v, vs, rfl⟩ : ∃ v vs, voltage = v :: vs := by
    match voltage, hv with
    | x :: xs, _ => exact ⟨x, xs, rfl⟩
  have hMv : pyMax (v :: vs) = some (vs.foldl max v) := rfl
  have hmv : pyMin (v :: vs) = some (vs.foldl min v) := rfl
  simp only [plot_voltage_and_current_traces, hMv, hmv, hM, hm,
    Option.some_bind]
  refine ⟨_, rfl, ?_, ?_, ?_⟩
  · intro hflat
    simp only [hflat, sub_self, mul_zero, lt_self_iff_false, if_false]
  · intro hlt
    rw [if_pos]
    have : (0 : ℚ) < M - m := by linarith
    nlinarith
  · intro lo hi hsome
    by_cases hcond : (0 : ℚ) < 21/20 * (M - m)
    · rw [if_pos hcond] at hsome
      simp only [Option.some.injEq, Prod.mk.injEq] at hsome
      obtain ⟨h1, h2⟩ := hsome
      rw [← h1, ← h2]
      linarith
    · rw [if_neg hcond] at hsome
      exact absurd hsome (by simp)

/-- Claim C6 witness: a flat sampled current [5, 5] produces no padded
current y-limits. -/
theorem claim_C6_witness :
    ∃ view, plot_voltage_and_current_traces [(1 : ℚ)] [5, 5] none
        = some view ∧ view.current_ylim = none := by
  obtain ⟨view, heq, hflat, _, _⟩ :=
    claim_C6 [(1 : ℚ)] [5, 5] none 5 5 rfl rfl (by simp)
  exact ⟨view, heq, hflat rfl⟩

lemma except_bind_ok (a : α) (f : α → Except String β) :
    (Except.ok a >>= f : Except String β) = f a := rfl

lemma except_bind_error (e : String) (f : α → Except String β) :
    (Except.error e >>= f : Except String β) = Except.error e := rfl

lemma highlightedIndices_zero (n : ℕ) :
    highlightedIndices 0 n = List.replicate n 0 := by
  rw [List.eq_replicate_iff]
  constructor
  · simp [highlightedIndices, linspaceInner]
  · intro b hb
    simp [highlightedIndices, linspaceInner] at hb
    obtain ⟨i, _, rfl⟩ := hb
    simp

/-- Claim C7 counterexample: plot_network_activity with an empty selection
and the default highlight count 3 does raise. The highlight rows computed for
0 selected neurons are [0, 0, 0], and reading spike_train_idx_list[0] from
the empty selection is an IndexError, so the call errors instead of
returning an empty raster panel. -/
theorem claim_C7_counterexample :
    plot_network_activity ⟨[(0 : ℚ), 1]⟩ ⟨[]⟩ none (.pylist []) (some 0)
      (some 100) 3 = .error "IndexError: list index out of range" := rfl

/-- Claim C7, amended: a call with an empty neuron selection returns normally
with an empty raster panel only when N_highlighted_spiketrains = 0; for every
N_highlighted_spiketrains > 0 (including the default 3) the highlight helper
indexes the empty selection and the call raises an IndexError. -/
theorem claim_C7 (rate : RateMonitorM) (spikes : SpikeMonitorM) (a b : ℚ)
    (nh : ℕ) (h : 0 < nh) :
    plot_network_activity rate spikes none (.pylist []) (some a) (some b) 0
      = .ok ⟨[], a, b, [], windowFilter a b rate.t, [], none⟩ ∧
    plot_network_activity rate spikes none (.pylist []) (some a) (some b) nh
      = .error "IndexError: list index out of range" := by
  obtain ⟨k, rfl⟩ : ∃ k, nh = k + 1 := ⟨nh - 1, by omega⟩
  refine ⟨rfl, ?_⟩
  have hcond : 0 < k + 1 := Nat.succ_pos k
  have hl_err : highlight_raster spikes.spike_trains a b []
      (highlightedIndices 0 (k + 1))
      = .error "IndexError: list index out of range" := by
    rw [highlightedIndices_zero, List.replicate_succ]
    rfl
  simp [plot_network_activity, validateIdxArg, deriveWindow, deriveSelection,
    hcond, hl_err, plot_raster, mapExcept, except_bind_ok, except_bind_error]

/-- Claim C7 witness: with an explicitly empty selection, highlight count 0
returns an empty raster layout while the default highlight count 3 raises. -/
theorem claim_C7_witness :
    plot_network_activity ⟨[(0 : ℚ)]⟩ ⟨[]⟩ none (.pylist []) (some 0)
      (some 100) 0 = .ok ⟨[], 0, 100, [], [0], [], none⟩ ∧
    plot_network_activity ⟨[(0 : ℚ)]⟩ ⟨[]⟩ none (.pylist []) (some 0)
      (some 100) 3 = .error "IndexError: list index out of range" := by
  have h := claim_C7 ⟨[(0 : ℚ)]⟩ ⟨[]⟩ 0 100 3 (by norm_num)
  exact ⟨h.1, h.2⟩

/-- Claim C8 counterexample: a tuple is a Python sequence type, yet supplying
it as spike_train_idx_list fails the isinstance list assertion, so the claim
that any supplied sequence-typed index list passes validation is false. -/
theorem claim_C8_counterexample :
    isSequenceType (PyArg.pytuple [1, 2]) = true ∧
    plot_network_activity ⟨[(0 : ℚ)]⟩ ⟨[]⟩ none (PyArg.pytuple [1, 2])
      (some 0) (some 1) 3
      = .error "spike_train_idx_list is not of type list" := ⟨rfl, rfl⟩

/-- Claim C8, amended: plot_network_activity raises an immediate error,
before any selection logic runs, exactly when spike_train_idx_list is
supplied and is not a Python list; every supplied list passes validation,
but sequence types other than list (such as tuple) are rejected too. -/
theorem claim_C8 (arg : PyArg) :
    ((∃ msg, validateIdxArg arg = .error msg)
      ↔ arg ≠ PyArg.pynone ∧ isPyList arg = false) ∧
    (∀ l, validateIdxArg (PyArg.pylist l) = .ok (some l)) ∧
    (∀ (rate : RateMonitorM) (spikes : SpikeMonitorM)
       (vm : Option StateMonitorM) (tmin tmax : Option ℚ) (nh : ℕ),
      arg ≠ PyArg.pynone → isPyList arg = false →
      plot_network_activity rate spikes vm arg tmin tmax nh
        = .error "spike_train_idx_list is not of type list") := by
  refine ⟨?_, fun l => rfl, ?_⟩
  · cases arg <;> simp [validateIdxArg, isPyList]
  · intro rate spikes vm tmin tmax nh h1 h2
    cases arg with
    | pynone => exact absurd rfl h1
    | pylist l => exact absurd h2 (by simp [isPyList])
    | pytuple l => rfl
    | pystr s => rfl
    | pyint n => rfl

/-- Claim C8 witness: a supplied int argument (not a sequence, not a list)
makes the call fail immediately with the validation error. -/
theorem claim_C8_witness :
    plot_network_activity ⟨[(0 : ℚ)]⟩ ⟨[]⟩ none (PyArg.pyint 7) none none 3
      = .error "spike_train_idx_list is not of type list" :=
  (claim_C8 (PyArg.pyint 7)).2.2 ⟨[(0 : ℚ)]⟩ ⟨[]⟩ none none none 3
    (by simp) rfl

lemma except_bind_eq_ok {α β : Type} {x : Except String α}
    {f : α → Except String β} {b : β} (h : (x >>= f) = .ok b) :
    ∃ a, x = .ok a ∧ f a = .ok b := by
  cases x with
  | ok a => exact ⟨a, rfl, h⟩
  | error e => exact Except.noConfusion h

/-- Claim C10: an explicitly supplied spike_train_idx_list is used for
rendering exactly as given, in the given order: no sorting and no 500-entry
truncation is applied to it; every successful call with an explicit list
renders with that very list as its selection. -/
theorem claim_C10 (l : List ℕ) :
    (∀ vr keys, deriveSelection (some l) vr keys = l) ∧
    (∀ (rate : RateMonitorM) (spikes : SpikeMonitorM)
       (vm : Option StateMonitorM) (tmin tmax : Option ℚ) (nh : ℕ)
       (layout : NetworkActivityLayout),
      plot_network_activity rate spikes vm (PyArg.pylist l) tmin tmax nh
        = .ok layout → layout.selection = l) := by
  refine ⟨fun vr keys => rfl, ?_⟩
  intro rate spikes vm tmin tmax nh layout h
  simp only [plot_network_activity, validateIdxArg, except_bind_ok,
    deriveSelection] at h
  cases hw : deriveWindow tmin tmax rate.t with
  | none =>
    rw [hw] at h
    exact Except.noConfusion h
  | some w =>
    rw [hw] at h
    obtain ⟨rows, _, h⟩ := except_bind_eq_ok h
    by_cases hnh : 0 < nh
    · rw [if_pos hnh] at h
      obtain ⟨hls, _, h⟩ := except_bind_eq_ok h
      cases vm with
      | none =>
        simp only [Except.ok.injEq] at h
        rw [← h]
      | some vmm =>
        obtain ⟨p, _, h⟩ := except_bind_eq_ok h
        simp only [Except.ok.injEq] at h
        rw [← h]
    · rw [if_neg hnh] at h
      cases vm with
      | none =>
        simp only [Except.ok.injEq] at h
        rw [← h]
      | some vmm =>
        obtain ⟨p, _, h⟩ := except_bind_eq_ok h
        simp only [Except.ok.injEq] at h
        rw [← h]

/-- Claim C10 witness: an unsorted over-500-entry explicit list is kept
as-is by the selection logic, and a successful concrete call with an
explicit list [7] renders with selection [7]. -/
theorem claim_C10_witness :
    deriveSelection (some ((List.range 501).reverse)) none []
      = (List.range 501).reverse ∧
    (NetworkActivityLayout.mk [7] 0 10 [[1]] [0] [] none).selection
      = [7] := by
  constructor
  · exact (claim_C10 ((List.range 501).reverse)).1 none []
  · exact (claim_C10 [7]).2 ⟨[(0 : ℚ)]⟩ ⟨[(7, [1])]⟩ none (some 0) (some 10)
      0 ⟨[7], 0, 10, [[1]], [0], [], none⟩ rfl

lemma mapExcept_ok : ∀ (l : List α) (f : α → Except String β) (g : α → β),
    (∀ x ∈ l, f x = .ok (g x)) → mapExcept f l = .ok (l.map g)
  | [], _, _, _ => rfl
  | x :: xs, f, g, h => by
    have hx := h x (List.mem_cons_self x xs)
    have hxs := mapExcept_ok xs f g (fun y hy => h y (List.mem_cons_of_mem x hy))
    simp only [mapExcept, hx, hxs, except_bind_ok, List.map_cons]

lemma mem_indexedFrom_snd : ∀ (l : List α) (i : ℕ) (p : ℕ × α),
    p ∈ indexedFrom i l → p.2 ∈ l
  | [], _, _, h => absurd h (List.not_mem_nil _)
  | x :: xs, i, p, h => by
    cases List.mem_cons.mp h with
    | inl he =>
      rw [he]
      exact List.mem_cons_self _ _
    | inr ht => exact List.mem_cons_of_mem _ (mem_indexedFrom_snd xs (i + 1) p ht)

lemma indexedFrom_map_snd : ∀ (l : List α) (i : ℕ) (f : α → β),
    (indexedFrom i l).map (fun p => f p.2) = l.map f
  | [], _, _ => rfl
  | x :: xs, i, f => by
    simp only [indexedFrom, List.map_cons, indexedFrom_map_snd xs (i + 1) f]

lemma indexedFrom_map_fst : ∀ (l : List α) (i : ℕ) (g : ℕ → β),
    (indexedFrom i l).map (fun p => g p.1) = (List.range' i l.length).map g
  | [], _, _ => rfl
  | x :: xs, i, g => by
    simp only [indexedFrom, List.map_cons, indexedFrom_map_fst xs (i + 1) g,
      List.length_cons, List.range'_succ]

lemma indexed_map_snd (l : List α) (f : α → β) :
    (indexed l).map (fun p => f p.2) = l.map f :=
  indexedFrom_map_snd l 0 f

lemma indexed_map_fst (l : List α) (g : ℕ → β) :
    (indexed l).map (fun p => g p.1) = (List.range l.length).map g := by
  unfold indexed
  rw [indexedFrom_map_fst, List.range_eq_range']

lemma indexed_map_pair_fst (l : List ℕ) (sel : List ℕ) :
    ((indexed l).map (fun p => ((sel.getD p.2 0 : ℕ),
        if p.1 = 0 then "r" else ".7"))).map Prod.fst
      = l.map (fun r => sel.getD r 0) := by
  rw [List.map_map]
  exact indexed_map_snd l (fun r => sel.getD r 0)

lemma indexed_map_pair_snd (l : List ℕ) (sel : List ℕ) :
    ((indexed l).map (fun p => ((sel.getD p.2 0 : ℕ),
        if p.1 = 0 then "r" else ".7"))).map Prod.snd
      = (List.range l.length).map (fun i => if i = 0 then "r" else ".7") := by
  rw [List.map_map]
  exact indexed_map_fst l (fun i => if i = 0 then "r" else ".7")

lemma get?_eq_getD_of_lt (l : List ℕ) (n : ℕ) (h : n < l.length) :
    l.get? n = some (l.getD n 0) := by
  rw [List.get?_eq_getElem?, List.getElem?_eq_getElem h,
    List.getD_eq_getElem?_getD, List.getElem?_eq_getElem h]
  rfl

lemma getD_mem_of_lt (l : List ℕ) (n : ℕ) (h : n < l.length) :
    l.getD n 0 ∈ l := by
  rw [List.getD_eq_getElem?_getD, List.getElem?_eq_getElem h]
  exact List.getElem_mem h

lemma map_getD_range (l : List ℕ) :
    (List.range l.length).map (fun i => l.getD i 0) = l := by
  apply List.ext_get
  · simp
  · intro n h1 h2
    simp only [List.get_eq_getElem, List.getElem_map, List.getElem_range,
      List.getD_eq_getElem?_getD, List.getElem?_eq_getElem h2,
      Option.getD_some]

lemma plot_voltage_traces_ok (rec : List ℕ) (vmt : List ℚ) (a b : ℚ)
    (sel : List ℕ) (tr : List ℕ)
    (hb : ∀ r ∈ tr, r < sel.length)
    (hrec : ∀ pi ∈ sel, pi ∈ rec) :
    plot_voltage_traces rec vmt a b sel tr
      = .ok (windowFilter a b vmt,
          (indexed tr).map (fun p => (sel.getD p.2 0,
            if p.1 = 0 then "r" else ".7"))) := by
  unfold plot_voltage_traces
  rw [mapExcept_ok (indexed tr) _
    (fun p => (sel.getD p.2 0, if p.1 = 0 then "r" else ".7")) ?side]
  case side =>
    intro p hp
    have h2 := mem_indexedFrom_snd tr 0 p hp
    have hlt : p.2 < sel.length := hb p.2 h2
    have hmem := hrec (sel.getD p.2 0) (getD_mem_of_lt sel p.2 hlt)
    rw [get?_eq_getD_of_lt sel p.2 hlt]
    simp only [hmem, if_true]
  rfl

/-- Claim C9 counterexample: with a voltage monitor recording neurons
[0, 1, 2], an explicit selection [0] and highlight count 0, only the trace of
neuron 0 is plotted, so not every recorded voltage trace is plotted. -/
theorem claim_C9_counterexample :
    plot_network_activity ⟨[(0 : ℚ), 5]⟩ ⟨[(0, [1]), (1, [2]), (2, [3])]⟩
      (some ⟨[0, 1, 2], [0, 5]⟩) (.pylist [0]) (some 0) (some 10) 0
      = .ok ⟨[0], 0, 10, [[1]], [0, 5], [], some ([0, 5], [(0, "r")])⟩ ∧
    (1 ∈ ([0, 1, 2] : List ℕ) ∧
      ∀ c : String, ((1 : ℕ), c) ∉ ([((0 : ℕ), "r")] : List (ℕ × String))) := by
  refine ⟨rfl, by decide, ?_⟩
  intro c hc
  simp at hc

/-- Claim C9, amended: the voltage panel exists exactly when a voltage
monitor is supplied; with highlight count 0 the panel plots the traces of
exactly the selected neurons in selection order (which are all recorded
traces only when the selection is the one derived from the voltage monitor;
an explicit sub-list restricts the panel, see the counterexample), and with
highlight count > 0 it plots exactly the highlighted raster rows
corresponding neurons; in both cases the first plotted trace is in the
distinguishing color r and the rest in the secondary color .7. -/
theorem claim_C9 (vm : StateMonitorM) (sel : List ℕ) (hl : List ℕ)
    (a b : ℚ)
    (hrec : ∀ pi ∈ sel, pi ∈ vm.record)
    (hb : ∀ r ∈ hl, r < sel.length) :
    (∀ (rate : RateMonitorM) (spikes : SpikeMonitorM) (arg : PyArg)
       (tmin tmax : Option ℚ) (nh : ℕ) (layout : NetworkActivityLayout),
      plot_network_activity rate spikes none arg tmin tmax nh = .ok layout →
      layout.voltage_panel = none) ∧
    (∀ (rate : RateMonitorM) (spikes : SpikeMonitorM) (arg : PyArg)
       (tmin tmax : Option ℚ) (nh : ℕ) (layout : NetworkActivityLayout),
      plot_network_activity rate spikes (some vm) arg tmin tmax nh
        = .ok layout → ∃ p, layout.voltage_panel = some p) ∧
    (∃ plotted, plot_voltage_traces vm.record vm.t a b sel
        (List.range sel.length) = .ok (windowFilter a b vm.t, plotted) ∧
      plotted.map Prod.fst = sel ∧
      plotted.map Prod.snd
        = (List.range sel.length).map
            (fun i => if i = 0 then "r" else ".7")) ∧
    (∃ plotted, plot_voltage_traces vm.record vm.t a b sel hl
        = .ok (windowFilter a b vm.t, plotted) ∧
      plotted.map Prod.fst = hl.map (fun r => sel.getD r 0) ∧
      plotted.map Prod.snd
        = (List.range hl.length).map
            (fun i => if i = 0 then "r" else ".7")) := by
  refine ⟨?_, ?_, ?_, ?_⟩
  · intro rate spikes arg tmin tmax nh layout h
    simp only [plot_network_activity] at h
    obtain ⟨il, _, h⟩ := except_bind_eq_ok h
    cases hw : deriveWindow tmin tmax rate.t with
    | none =>
      rw [hw] at h
      exact Except.noConfusion h
    | some w =>
      rw [hw] at h
      obtain ⟨w2, _, h⟩ := except_bind_eq_ok h
      obtain ⟨rows, _, h⟩ := except_bind_eq_ok h
      by_cases hnh : 0 < nh
      · rw [if_pos hnh] at h
        obtain ⟨hls, _, h⟩ := except_bind_eq_ok h
        obtain ⟨vp, hvp, h⟩ := except_bind_eq_ok h
        rw [← Except.ok.inj h, ← Except.ok.inj hvp]
      · rw [if_neg hnh] at h
        obtain ⟨hls, _, h⟩ := except_bind_eq_ok h
        obtain ⟨vp, hvp, h⟩ := except_bind_eq_ok h
        rw [← Except.ok.inj h, ← Except.ok.inj hvp]
  · intro rate spikes arg tmin tmax nh layout h
    simp only [plot_network_activity] at h
    obtain ⟨il, _, h⟩ := except_bind_eq_ok h
    cases hw : deriveWindow tmin tmax rate.t with
    | none =>
      rw [hw] at h
      exact Except.noConfusion h
    | some w =>
      rw [hw] at h
      obtain ⟨w2, _, h⟩ := except_bind_eq_ok h
      obtain ⟨rows, _, h⟩ := except_bind_eq_ok h
      by_cases hnh : 0 < nh
      · rw [if_pos hnh] at h
        obtain ⟨hls, _, h⟩ := except_bind_eq_ok h
        obtain ⟨p, _, h⟩ := except_bind_eq_ok h
        obtain ⟨vp, hvp, h⟩ := except_bind_eq_ok h
        refine ⟨p, ?_⟩
        rw [← Except.ok.inj h, ← Except.ok.inj hvp]
      · rw [if_neg hnh] at h
        obtain ⟨hls, _, h⟩ := except_bind_eq_ok h
        obtain ⟨p, _, h⟩ := except_bind_eq_ok h
        obtain ⟨vp, hvp, h⟩ := except_bind_eq_ok h
        refine ⟨p, ?_⟩
        rw [← Except.ok.inj h, ← Except.ok.inj hvp]
  · refine ⟨_, plot_voltage_traces_ok vm.record vm.t a b sel
      (List.range sel.length) (fun r hr => List.mem_range.mp hr) hrec,
      ?_, ?_⟩
    · rw [indexed_map_pair_fst, map_getD_range]
    · rw [indexed_map_pair_snd, List.length_range]
  · refine ⟨_, plot_voltage_traces_ok vm.record vm.t a b sel hl hb hrec,
      ?_, ?_⟩
    · rw [indexed_map_pair_fst]
    · rw [indexed_map_pair_snd]

/-- Claim C9 witness: for a voltage monitor recording [0, 1, 2] with the
derived selection [0, 1, 2], highlight count 0 plots the traces of all three
selected (and recorded) neurons, and highlight rows [1] plot exactly neuron
1 in the distinguishing color. -/
theorem claim_C9_witness :
    (∃ plotted, plot_voltage_traces [0, 1, 2] [(0 : ℚ), 5] 0 10 [0, 1, 2]
        (List.range 3) = .ok ([0, 5], plotted) ∧
      plotted.map Prod.fst = [0, 1, 2]) ∧
    (∃ plotted, plot_voltage_traces [0, 1, 2] [(0 : ℚ), 5] 0 10 [0, 1, 2]
        [1] = .ok ([0, 5], plotted) ∧
      plotted.map Prod.fst = [1] ∧
      plotted.map Prod.snd = ["r"]) := by
  obtain ⟨_, _, h3, h4⟩ := claim_C9 ⟨[0, 1, 2], [(0 : ℚ), 5]⟩ [0, 1, 2] [1]
    0 10 (fun pi h => h) (by decide)
  constructor
  · obtain ⟨plotted, heq, hfst, _⟩ := h3
    exact ⟨plotted, heq, hfst⟩
  · obtain ⟨plotted, heq, hfst, hsnd⟩ := h4
    exact ⟨plotted, heq, hfst, hsnd⟩

end PlotTools
